import Mathlib

/-!
# go-gitea-webhook: the request handler, the configuration loader and the reload path

A shallow embedding of `go-gitea-webhook.go`.

* Go `string` values are Lean `String`s, Go `[]byte` values are lists of bytes, and
  `[]byte(s)` is `bytesOf s`.
* The handler is a function on an explicit state: the response writer, the state of the
  outside world the commands act on, and a trace of the effects performed so far (log lines,
  the body read, the JSON decoding, the commands started).
* A Go panic is a value returned next to the state; `hookHandler` applies its deferred
  `recover` to it.
* Library code is either a parameter (`json.Unmarshal`, `CombinedOutput`, `os.Environ`, the
  files) or a small model of its documented behaviour (`http.ResponseWriter`, `http.Error`,
  `base64.StdEncoding`, decoding a JSON document into an existing value).
* The payload type and the signature middleware belong to the Gitea SDK; they are modelled
  from the specification and marked as such.
* The process is a state machine whose steps are start-up, a SIGHUP and a request, taken one
  at a time; interleavings inside a step are not modelled.
-/

namespace GiteaWebhook

/-! ## Byte strings -/

/-- Go `[]byte`. -/
abbrev Bytes := List UInt8

/-- The conversion `[]byte(s)`: the UTF-8 bytes of a string. -/
def bytesOf (s : String) : Bytes := s.toList.flatMap String.utf8EncodeChar

/-! ## `encoding/base64` -/

namespace b64

/-- The alphabet `encodeStd` of `StdEncoding`. -/
def encodeStd : List Char :=
  "ABCDEFGHIJKLMNOPQRSTUVWXYZabcdefghijklmnopqrstuvwxyz0123456789+/".toList

/-- The character for a 6-bit value. -/
def enc (n : Nat) : Char := encodeStd.getD (n % 64) 'A'

/-- The characters of `StdEncoding.EncodeToString`: three bytes give four characters, a
remainder of one or two bytes is padded with `=`. -/
def encodeChars : Bytes → List Char
  | [] => []
  | [a] =>
    let val := a.toNat * 65536
    [enc (val / 262144), enc (val / 4096), '=', '=']
  | [a, b] =>
    let val := a.toNat * 65536 + b.toNat * 256
    [enc (val / 262144), enc (val / 4096), enc (val / 64), '=']
  | a :: b :: c :: rest =>
    let val := a.toNat * 65536 + b.toNat * 256 + c.toNat
    enc (val / 262144) :: enc (val / 4096) :: enc (val / 64) :: enc val :: encodeChars rest

/-- `b64.StdEncoding.EncodeToString`. -/
def EncodeToString (src : Bytes) : String := String.mk (encodeChars src)

end b64

/-! ## `net/http`: status codes and the response writer -/

namespace http

def MethodPost : String := "POST"

def StatusOK : Nat := 200
def StatusBadRequest : Nat := 400
def StatusUnauthorized : Nat := 401
def StatusMethodNotAllowed : Nat := 405
def StatusInternalServerError : Nat := 500

/-- `http.StatusText` on the codes this program uses; any other code is outside the model
and gets the empty text. -/
def StatusText (code : Nat) : String :=
  if code = 200 then "OK"
  else if code = 400 then "Bad Request"
  else if code = 401 then "Unauthorized"
  else if code = 405 then "Method Not Allowed"
  else if code = 500 then "Internal Server Error"
  else ""

/-- What a handler has done to its `http.ResponseWriter`: whether the status line has been
committed, with which code, and the body bytes written so far. Header fields are not
modelled. -/
structure ResponseWriter where
  wroteHeader : Bool
  status : Nat
  body : Bytes
deriving DecidableEq, Repr

/-- The writer a handler receives: nothing written yet. -/
def ResponseWriter.fresh : ResponseWriter := ⟨false, 0, []⟩

/-- `w.WriteHeader(code)`: the first call commits the status; a later call is superfluous
and is ignored. -/
def ResponseWriter.WriteHeader (w : ResponseWriter) (code : Nat) : ResponseWriter :=
  if w.wroteHeader then w else { w with wroteHeader := true, status := code }

/-- `w.Write(b)`: commits status 200 if no status has been committed, then appends to the
body. -/
def ResponseWriter.Write (w : ResponseWriter) (b : Bytes) : ResponseWriter :=
  let w1 := if w.wroteHeader then w else w.WriteHeader StatusOK
  { w1 with body := w1.body ++ b }

/-- `http.Error(w, error, code)`: `w.WriteHeader(code)` followed by
`fmt.Fprintln(w, error)`. -/
def Error (w : ResponseWriter) (error : String) (code : Nat) : ResponseWriter :=
  (w.WriteHeader code).Write (bytesOf (error ++ "\n"))

/-- What the server does when the handler returns: a response whose status was never
committed is sent with status 200. -/
def ResponseWriter.finish (w : ResponseWriter) : ResponseWriter :=
  w.WriteHeader StatusOK

end http

/-! ## Configuration and payload types -/

/-- A repository from the config file. -/
structure ConfigRepository where
  Name : String
  Commands : List String
deriving DecidableEq, Repr

/-- The config file. -/
structure Config where
  Logfile : String
  Address : String
  Port : Int
  Secret : String
  Repositories : List ConfigRepository
deriving DecidableEq, Repr

/-- Modelled from the spec: the type of `hook.Repo.Owner` (Gitea SDK type `api.User`, declared
outside this repository); of the owner only the e-mail address (`repoOwnerEmail`) is read. -/
structure User where
  Email : String
deriving DecidableEq, Repr

/-- Modelled from the spec: the type of `hook.HeadCommit.Author` (`api.PayloadUser`, declared
outside this repository); only `headCommitAuthorEmail` is read. -/
structure PayloadUser where
  Email : String
deriving DecidableEq, Repr

/-- Modelled from the spec: the type of `hook.Repo` (`api.Repository`, declared outside this
repository) with the fields `repoFullName`, `repoHTMLURL` and the owner of the spec. -/
structure Repository where
  FullName : String
  HTMLURL : String
  Owner : User
deriving DecidableEq, Repr

/-- Modelled from the spec: the type of `hook.HeadCommit` (`api.PayloadCommit`, declared
outside this repository) with `headCommitID` and the author of the spec. -/
structure PayloadCommit where
  ID : String
  Author : PayloadUser
deriving DecidableEq, Repr

/-- Modelled from the spec: the decoded payload `api.PushPayload`, whose declaration is in
`code.gitea.io/gitea/modules/structs` and not in this repository. The spec gives a decoded
push event six string fields; they are placed under the selectors with which `hookHandler`
reads them. As in the spec, every decoded event has all six. -/
structure PushPayload where
  Ref : String
  HeadCommit : PayloadCommit
  Repo : Repository
deriving DecidableEq, Repr

/-! ## Effects -/

/-- An `exec.Cmd`: the program name given to `exec.Command`, the argument vector (its first
entry is the program name) and the environment. -/
structure Cmd where
  Path : String
  Args : List String
  Env : List String
deriving DecidableEq, Repr

/-- `exec.Command(name, arg...)`. -/
def exec.Command (name : String) (arg : List String) : Cmd :=
  { Path := name, Args := name :: arg, Env := [] }

/-- What `command.CombinedOutput()` returns: the combined standard output and standard error,
and the text of the error, if any. -/
structure CmdResult where
  out : Bytes
  err : Option String
deriving DecidableEq, Repr

/-- The effects of a handler, in the order they happen. -/
inductive Event where
  /-- One line written through package `log`. -/
  | log (line : Bytes)
  /-- The call `io.ReadAll(r.Body)`. -/
  | readAll
  /-- The call `json.Unmarshal(data, &hook)`. -/
  | unmarshal (data : Bytes)
  /-- The call `command.CombinedOutput()`, which starts the command and waits for it. -/
  | exec (command : Cmd)
deriving DecidableEq, Repr

/-- The commands run in a trace, in order. -/
def execsOf : List Event → List Cmd
  | [] => []
  | Event.exec c :: rest => c :: execsOf rest
  | _ :: rest => execsOf rest

/-- The bodies given to `json.Unmarshal` in a trace, in order. -/
def unmarshalsOf : List Event → List Bytes
  | [] => []
  | Event.unmarshal d :: rest => d :: unmarshalsOf rest
  | _ :: rest => unmarshalsOf rest

/-- How many times the request body is read in a trace. -/
def readsOf : List Event → Nat
  | [] => 0
  | Event.readAll :: rest => readsOf rest + 1
  | _ :: rest => readsOf rest

/-- The libraries and the process state a handler depends on. `σ` is the state of the world
outside the process, which commands read and change. -/
structure Runtime (σ : Type) where
  /-- `os.Environ()`. -/
  Environ : List String
  /-- `json.Unmarshal(data, &hook)` on a zero `hook`: the value left in `hook` and the
  text of the error, if any. -/
  Unmarshal : Bytes → PushPayload × Option String
  /-- `command.CombinedOutput()` in a given world. -/
  CombinedOutput : σ → Cmd → σ × CmdResult

/-- An `http.Request`, as far as the handler looks at it. `Body` is what `io.ReadAll(r.Body)`
returns: the bytes, or the text of a read error. -/
structure Request where
  Method : String
  Header : List (String × String)
  Body : Except String Bytes

/-- `r.Header.Get(key)`: the first value stored under the key, the empty string if there is
none. -/
def Request.HeaderGet (r : Request) (key : String) : String :=
  match r.Header.lookup key with
  | some v => v
  | none => ""

/-- The state a handler works on. -/
structure HandlerState (σ : Type) where
  w : http.ResponseWriter
  world : σ
  trace : List Event

/-- The state at the start of a request. -/
def HandlerState.start {σ : Type} (world : σ) : HandlerState σ :=
  { w := http.ResponseWriter.fresh, world := world, trace := [] }

/-- One `log.Println` or `log.Printf` call. -/
def logLine {σ : Type} (st : HandlerState σ) (line : Bytes) : HandlerState σ :=
  { st with trace := st.trace ++ [Event.log line] }

/-! ## The program -/

/-- `panicIf(err, what...)`: `none` when it returns, the panic value when it panics. -/
def panicIf (err : Option String) (what : List String) : Option String :=
  match err with
  | none => none
  | some e =>
    match what with
    | [] => some e
    | w :: _ => some (e ++ (" " ++ w))

/-- `httpError(w, r, status, err)`. -/
def httpError {σ : Type} (st : HandlerState σ) (status : Nat) (err : Option String) :
    HandlerState σ :=
  let st1 := { st with w := http.Error st.w (http.StatusText status) status }
  match err with
  | none => st1
  | some e =>
    let st2 := logLine st1 (bytesOf (toString status ++ ":" ++ e))
    { st2 with w := st2.w.Write (bytesOf (toString status ++ ":" ++ e)) }

/-- The environment entries `hookHandler` adds for a push event (lines 163 to 167). -/
def repoEnv (hook : PushPayload) : List String :=
  [ "REPO_NAME=" ++ hook.Repo.FullName,
    "REPO_OWNER=" ++ hook.Repo.Owner.Email,
    "REPO_REF=" ++ hook.Ref,
    "REPO_HEAD_COMMIT=" ++ hook.HeadCommit.ID,
    "REPO_HEAD_AUTHOR=" ++ hook.HeadCommit.Author.Email ]

/-- The body of the loop `for _, cmd := range repo.Commands` (lines 161 to 180). -/
def runCommand {σ : Type} (rt : Runtime σ) (hook : PushPayload) (cmd : String)
    (st : HandlerState σ) : HandlerState σ :=
  let command := { exec.Command cmd [] with Env := rt.Environ ++ repoEnv hook }
  let res := rt.CombinedOutput st.world command
  let st1 := { st with world := res.1, trace := st.trace ++ [Event.exec command] }
  match res.2.err with
  | some e => httpError (logLine st1 (bytesOf e)) http.StatusInternalServerError (some e)
  | none =>
    let st2 := logLine st1 (bytesOf ("Executed: " ++ cmd))
    let st3 := logLine st2 (bytesOf "Output: " ++ res.2.out)
    { st3 with w := st3.w.Write res.2.out }

/-- The loop `for _, cmd := range repo.Commands` (line 160). -/
def runCommands {σ : Type} (rt : Runtime σ) (hook : PushPayload) :
    List String → HandlerState σ → HandlerState σ
  | [], st => st
  | cmd :: rest, st => runCommands rt hook rest (runCommand rt hook cmd st)

/-- The loop `for _, repo := range config.Repositories` (lines 156 to 184): the commands of a
repository whose name matches are run and the loop is left. -/
def dispatch {σ : Type} (rt : Runtime σ) (hook : PushPayload) :
    List ConfigRepository → HandlerState σ → HandlerState σ
  | [], st => st
  | repo :: rest, st =>
    if repo.Name = hook.Repo.FullName ∨ repo.Name = hook.Repo.HTMLURL then
      runCommands rt hook repo.Commands st
    else
      dispatch rt hook rest st

/-- The body of `hookHandler` (lines 131 to 184): the state it leaves and the value it panicked
with, if it did. -/
def hookHandlerBody {σ : Type} (rt : Runtime σ) (config : Config) (st : HandlerState σ)
    (r : Request) : HandlerState σ × Option String :=
  if r.Method ≠ http.MethodPost then
    (httpError st http.StatusMethodNotAllowed none, none)
  else
    let event := r.HeaderGet "X-Gitea-Event"
    if event ≠ "push" then
      (httpError st http.StatusBadRequest (some ("unhandled event " ++ event)), none)
    else
      let st1 := { st with trace := st.trace ++ [Event.readAll] }
      match r.Body with
      | Except.error e =>
        (httpError st1 http.StatusBadRequest (some ("reading body: " ++ e)), none)
      | Except.ok data =>
        let st2 := { st1 with trace := st1.trace ++ [Event.unmarshal data] }
        let res := rt.Unmarshal data
        let hook := res.1
        match panicIf res.2
            ["while unmarshaling request base64(" ++ b64.EncodeToString data ++ ")"] with
        | some reason => (st2, some reason)
        | none =>
          let st3 := logLine st2 (bytesOf ("received webhook on " ++ hook.Repo.FullName))
          (dispatch rt hook config.Repositories st3, none)

/-- `hookHandler(w, r)`: the body, then the deferred function, which answers a panic with
status 400. -/
def hookHandler {σ : Type} (rt : Runtime σ) (config : Config) (st : HandlerState σ)
    (r : Request) : HandlerState σ :=
  match hookHandlerBody rt config st r with
  | (st1, some reason) => httpError st1 http.StatusBadRequest (some ("panic: " ++ reason))
  | (st1, none) => st1

/-! ## The signature middleware -/

/-- Modelled from the spec: `gitea.VerifyWebhookSignatureMiddleware(secret)(next)`, a function
of the Gitea SDK whose code is not in this repository. The spec (4.2) has it run ahead of all
other handling: a request failing verification is rejected with an authentication error, any
other request is handed to `next`. `verify secret r` stands for the spec's
`verify(secret, rawBody, signatureHeader)` on the raw body and signature header of `r`; the
HMAC computation is not modelled. The rejection is the "401/403-equivalent" of the spec,
rendered as status 401. -/
def VerifyWebhookSignatureMiddleware {σ : Type} (verify : String → Request → Bool)
    (secret : String) (next : HandlerState σ → Request → HandlerState σ)
    (st : HandlerState σ) (r : Request) : HandlerState σ :=
  if verify secret r then next st r
  else
    { st with w := http.Error st.w (http.StatusText http.StatusUnauthorized)
                http.StatusUnauthorized }

/-! ## Loading the configuration -/

/-- What a JSON object says about one `ConfigRepository`: for each field, the value of the
member that names it, if there is one. An entry of `Commands` is a string, or `none` for a
JSON `null`. -/
structure ConfigRepositoryDoc where
  Name : Option String
  Commands : Option (List (Option String))
deriving DecidableEq, Repr

/-- What a JSON document says about a `Config`: for each field, the value of the member that
names it, if there is one. Members that name no field are ignored by `json.Unmarshal` and do
not appear. -/
structure ConfigDoc where
  Logfile : Option String
  Address : Option String
  Port : Option Int
  Secret : Option String
  Repositories : Option (List ConfigRepositoryDoc)
deriving DecidableEq, Repr

/-- The zero value of `ConfigRepository`. -/
def ConfigRepository.zero : ConfigRepository := { Name := "", Commands := [] }

/-- The zero value of `Config`, the initial value of the variable `config`. -/
def Config.zero : Config :=
  { Logfile := "", Address := "", Port := 0, Secret := "", Repositories := [] }

/-- Decoding a JSON array into an existing slice of strings: a string overwrites the element
at its index, a `null` leaves it as it is (empty beyond the end of the slice); the result is
as long as the array. -/
def unmarshalStrings : List (Option String) → List String → List String
  | [], _ => []
  | some x :: ds, [] => x :: unmarshalStrings ds []
  | none :: ds, [] => "" :: unmarshalStrings ds []
  | some x :: ds, _ :: vs => x :: unmarshalStrings ds vs
  | none :: ds, v :: vs => v :: unmarshalStrings ds vs

/-- Decoding a JSON object into an existing `ConfigRepository`: a field named by the object
is decoded into, a field the object is silent about keeps its value. -/
def ConfigRepositoryDoc.into (d : ConfigRepositoryDoc) (v : ConfigRepository) :
    ConfigRepository :=
  { Name := match d.Name with
      | some x => x
      | none => v.Name,
    Commands := match d.Commands with
      | some x => unmarshalStrings x v.Commands
      | none => v.Commands }

/-- Decoding a JSON array into an existing slice of `ConfigRepository`: the element at each
index is decoded into the element the slice already has there, or into a zero element beyond
its end; the result is as long as the array. (The slice is represented by its elements up
to its length; the elements Go keeps between length and capacity are zero after a first
decoding.) -/
def unmarshalRepositories : List ConfigRepositoryDoc → List ConfigRepository →
    List ConfigRepository
  | [], _ => []
  | d :: ds, [] => d.into ConfigRepository.zero :: unmarshalRepositories ds []
  | d :: ds, v :: vs => d.into v :: unmarshalRepositories ds vs

/-- Decoding a JSON document into an existing `Config`, as `json.Unmarshal(data, &config)`
does once the text is parsed: a field named by the document is decoded into, a field the
document is silent about keeps its value. -/
def ConfigDoc.into (d : ConfigDoc) (v : Config) : Config :=
  { Logfile := match d.Logfile with
      | some x => x
      | none => v.Logfile,
    Address := match d.Address with
      | some x => x
      | none => v.Address,
    Port := match d.Port with
      | some x => x
      | none => v.Port,
    Secret := match d.Secret with
      | some x => x
      | none => v.Secret,
    Repositories := match d.Repositories with
      | some x => unmarshalRepositories x v.Repositories
      | none => v.Repositories }

/-- What `main` and `loadConfig` find outside the program: the files and the JSON decoder. -/
structure Host where
  /-- The content `os.Open(name)` followed by reads yields, `none` if the file cannot be
  opened. -/
  Open : String → Option Bytes
  /-- Whether `os.OpenFile(name, O_RDWR|O_APPEND|O_CREATE, 0666)` succeeds. -/
  OpenFile : String → Bool
  /-- The reading `json.Unmarshal` gives a text: the document it denotes, or the error
  reported for it (a syntax error, or a member whose value does not fit its field). -/
  Parse : Bytes → Except String ConfigDoc

/-- `loadConfig(configFile)` run when the variable `config` holds the value `config`: the
value of the variable afterwards, which is also the value returned, or the value of the
panic. A single `Read` into a buffer of 1024 bytes is decoded; closing the file is taken to
succeed. -/
def loadConfig (fs : Host) (configFile : String) (config : Config) :
    Except String Config :=
  match fs.Open configFile with
  | none => Except.error ("open " ++ configFile)
  | some content =>
    if content = [] then Except.error "EOF"
    else
      match fs.Parse (content.take 1024) with
      | Except.error e => Except.error e
      | Except.ok doc => Except.ok (doc.into config)

/-! ## The process: start-up, reload signal, requests -/

/-- The state of the running process. -/
structure Process where
  /-- The variable `config`. -/
  config : Config
  /-- The variable `configFile`. -/
  configFile : String
  /-- The argument `config.Secret` with which line 91 built the middleware: the value the
  variable had when the handler was registered. -/
  secret : String
  /-- Whether the goroutine of lines 59 to 63 is still waiting at `<-sigc`. -/
  waiting : Bool
deriving DecidableEq, Repr

/-- Function `main` up to the point where the server listens (lines 54 to 98): the process
state, or the value of the panic that ends the process. -/
def main (fs : Host) (args : List String) : Except String Process :=
  let configFile := match args with
    | _ :: a :: _ => a
    | _ => "config.json"
  match loadConfig fs configFile Config.zero with
  | Except.error e => Except.error e
  | Except.ok config =>
    if config.Logfile ≠ "-" ∧ fs.OpenFile config.Logfile = false then
      Except.error ("open " ++ config.Logfile)
    else
      Except.ok { config := config, configFile := configFile, secret := config.Secret,
                  waiting := true }

/-- A SIGHUP delivered to the running process. The goroutine of lines 59 to 63 receives one
signal, reloads and ends; a signal that finds it gone stays in the channel. A panic in the
goroutine ends the process. -/
def sighup (fs : Host) (p : Process) : Except String Process :=
  if p.waiting then
    match loadConfig fs p.configFile p.config with
    | Except.error e => Except.error e
    | Except.ok config => Except.ok { p with config := config, waiting := false }
  else
    Except.ok p

/-- One request served by the running process: the handler registered at line 91, on a
fresh response writer. -/
def serve {σ : Type} (verify : String → Request → Bool) (rt : Runtime σ) (p : Process)
    (world : σ) (r : Request) : HandlerState σ :=
  VerifyWebhookSignatureMiddleware verify p.secret (hookHandler rt p.config)
    (HandlerState.start world) r

/-! ## Vocabulary of the statements -/

/-- The matching condition of line 158 as a test on a rule. -/
def ruleMatches (hook : PushPayload) (repo : ConfigRepository) : Bool :=
  decide (repo.Name = hook.Repo.FullName ∨ repo.Name = hook.Repo.HTMLURL)

/-- The command `hookHandler` builds for a configured command string. -/
def commandFor {σ : Type} (rt : Runtime σ) (hook : PushPayload) (cmd : String) : Cmd :=
  { Path := cmd, Args := [cmd],
    Env := rt.Environ ++
      [ "REPO_NAME=" ++ hook.Repo.FullName,
        "REPO_OWNER=" ++ hook.Repo.Owner.Email,
        "REPO_REF=" ++ hook.Ref,
        "REPO_HEAD_COMMIT=" ++ hook.HeadCommit.ID,
        "REPO_HEAD_AUTHOR=" ++ hook.HeadCommit.Author.Email ] }

/-- The results of running the given commands one after the other, each in the world the
previous one left. -/
def outcomes {σ : Type} (rt : Runtime σ) (hook : PushPayload) : List String → σ → List CmdResult
  | [], _ => []
  | cmd :: rest, world =>
    (rt.CombinedOutput world (commandFor rt hook cmd)).2 ::
      outcomes rt hook rest (rt.CombinedOutput world (commandFor rt hook cmd)).1

/-- The part of the response body that belongs to one command: its output if it succeeded,
otherwise the status text line followed by `500:` and the error. -/
def chunk (res : CmdResult) : Bytes :=
  match res.err with
  | none => res.out
  | some e => bytesOf "Internal Server Error\n" ++ bytesOf ("500:" ++ e)

/-! ## Concrete inputs -/

/-- A push event for `org/repo`. -/
def samplePush : PushPayload :=
  { Ref := "refs/heads/main",
    HeadCommit := { ID := "4f2a9c1", Author := { Email := "dev@example.org" } },
    Repo := { FullName := "org/repo", HTMLURL := "https://git.example.org/org/repo",
              Owner := { Email := "owner@example.org" } } }

/-- The value a failed decoding leaves in `hook`. -/
def emptyPush : PushPayload :=
  { Ref := "", HeadCommit := { ID := "", Author := { Email := "" } },
    Repo := { FullName := "", HTMLURL := "", Owner := { Email := "" } } }

/-- A runtime whose world counts the commands started. The body `push org/repo` decodes to
`samplePush`, any other body is a decoding error; the command `false` fails with
`exit status 1`, any other command prints `ok`. -/
def sampleRuntime : Runtime Nat :=
  { Environ := ["PATH=/usr/bin"],
    Unmarshal := fun data =>
      if data = bytesOf "push org/repo" then (samplePush, none)
      else (emptyPush, some "invalid character"),
    CombinedOutput := fun n c =>
      (n + 1,
        if c.Path = "false" then { out := bytesOf "ignored", err := some "exit status 1" }
        else { out := bytesOf "ok\n", err := none }) }

/-- A POST request with the given event header and body. -/
def postRequest (event : String) (body : String) : Request :=
  { Method := "POST", Header := [("X-Gitea-Event", event)], Body := Except.ok (bytesOf body) }

/-- A configuration with the given rules. -/
def configWith (repos : List ConfigRepository) : Config :=
  { Logfile := "-", Address := "", Port := 8080, Secret := "s3cret", Repositories := repos }

/-- The state of a request whose body `data` was read and decoded to `hook`, at the point
where the loop over the configured repositories starts (line 156). -/
def afterDecode {σ : Type} (st : HandlerState σ) (data : Bytes) (hook : PushPayload) :
    HandlerState σ :=
  { st with trace := st.trace ++ [Event.readAll, Event.unmarshal data,
      Event.log (bytesOf ("received webhook on " ++ hook.Repo.FullName))] }

/-- A signature check for the examples: the header `X-Gitea-Signature` must carry the
secret itself. -/
def sampleVerify (secret : String) (r : Request) : Bool :=
  r.HeaderGet "X-Gitea-Signature" == secret

/-- A POST push request for `org/repo` carrying the given signature. -/
def signedPush (signature : String) : Request :=
  { Method := "POST",
    Header := [("X-Gitea-Event", "push"), ("X-Gitea-Signature", signature)],
    Body := Except.ok (bytesOf "push org/repo") }

/-- The config file of the first generation. -/
def firstText : String :=
  "\x7b\"Logfile\":\"-\",\"Address\":\"127.0.0.1\",\"Port\":8080,\"Secret\":\"old\"," ++
  "\"Repositories\":[\x7b\"Name\":\"org/repo\",\"Commands\":[\"deploy\"]\x7d]\x7d"

/-- A valid config file that names neither `Secret` nor `Repositories`. -/
def partialText : String := "\x7b\"Address\":\"0.0.0.0\",\"Port\":9090\x7d"

/-- The config file of the second generation: a new secret and a new rule. -/
def secondText : String :=
  "\x7b\"Secret\":\"new\",\"Repositories\":[\x7b\"Name\":\"org/repo\"," ++
  "\"Commands\":[\"false\"]\x7d]\x7d"

/-- The JSON decoder on the three texts above; any other text counts as a syntax error. -/
def sampleParse (data : Bytes) : Except String ConfigDoc :=
  if data = bytesOf firstText then
    Except.ok { Logfile := some "-", Address := some "127.0.0.1", Port := some 8080,
                Secret := some "old",
                Repositories := some [{ Name := some "org/repo", Commands := some [some "deploy"] }] }
  else if data = bytesOf partialText then
    Except.ok { Logfile := none, Address := some "0.0.0.0", Port := some 9090, Secret := none,
                Repositories := none }
  else if data = bytesOf secondText then
    Except.ok { Logfile := none, Address := none, Port := none, Secret := some "new",
                Repositories := some [{ Name := some "org/repo", Commands := some [some "false"] }] }
  else Except.error "invalid character"

/-- A file system in which `config.json` has the given content. -/
def sampleFiles (content : String) : Host :=
  { Open := fun name => if name = "config.json" then some (bytesOf content) else none,
    OpenFile := fun _ => true,
    Parse := sampleParse }

/-- The configuration of the first generation. -/
def firstConfig : Config :=
  { Logfile := "-", Address := "127.0.0.1", Port := 8080, Secret := "old",
    Repositories := [{ Name := "org/repo", Commands := ["deploy"] }] }

/-- The process after start-up on the first generation. -/
def firstProcess : Process :=
  { config := firstConfig, configFile := "config.json", secret := "old", waiting := true }

/-- The process after the reload of the second generation. -/
def secondProcess : Process :=
  { config := { Logfile := "-", Address := "127.0.0.1", Port := 8080, Secret := "new",
                Repositories := [{ Name := "org/repo", Commands := ["false"] }] },
    configFile := "config.json", secret := "old", waiting := false }

/-! ## Lemmas on traces and the response writer -/

theorem execsOf_append (a b : List Event) : execsOf (a ++ b) = execsOf a ++ execsOf b := by
  induction a with
  | nil => rfl
  | cons e rest ih => cases e <;> simp [execsOf, ih]

theorem unmarshalsOf_append (a b : List Event) :
    unmarshalsOf (a ++ b) = unmarshalsOf a ++ unmarshalsOf b := by
  induction a with
  | nil => rfl
  | cons e rest ih => cases e <;> simp [unmarshalsOf, ih]

theorem readsOf_append (a b : List Event) : readsOf (a ++ b) = readsOf a + readsOf b := by
  induction a with
  | nil => simp [readsOf]
  | cons e rest ih =>
    cases e <;> simp [readsOf, ih]
    omega

theorem bytesOf_append (a b : String) : bytesOf (a ++ b) = bytesOf a ++ bytesOf b := by
  simp [bytesOf, String.toList, String.data_append]

theorem Write_body (w : http.ResponseWriter) (b : Bytes) : (w.Write b).body = w.body ++ b := by
  unfold http.ResponseWriter.Write http.ResponseWriter.WriteHeader
  cases h : w.wroteHeader <;> simp [h]

theorem Write_wroteHeader (w : http.ResponseWriter) (b : Bytes) :
    (w.Write b).wroteHeader = true := by
  unfold http.ResponseWriter.Write http.ResponseWriter.WriteHeader
  cases h : w.wroteHeader <;> simp [h]

theorem Write_status (w : http.ResponseWriter) (b : Bytes) :
    (w.Write b).status = if w.wroteHeader then w.status else 200 := by
  unfold http.ResponseWriter.Write http.ResponseWriter.WriteHeader
  cases h : w.wroteHeader <;> simp [h, http.StatusOK]

theorem Error_body (w : http.ResponseWriter) (text : String) (code : Nat) :
    (http.Error w text code).body = w.body ++ bytesOf (text ++ "\n") := by
  unfold http.Error
  rw [Write_body]
  unfold http.ResponseWriter.WriteHeader
  cases h : w.wroteHeader <;> simp [h]

theorem Error_wroteHeader (w : http.ResponseWriter) (text : String) (code : Nat) :
    (http.Error w text code).wroteHeader = true := by
  unfold http.Error
  exact Write_wroteHeader _ _

theorem Error_status (w : http.ResponseWriter) (text : String) (code : Nat) :
    (http.Error w text code).status = if w.wroteHeader then w.status else code := by
  unfold http.Error
  rw [Write_status]
  unfold http.ResponseWriter.WriteHeader
  cases h : w.wroteHeader <;> simp [h]

theorem finish_of_wroteHeader (w : http.ResponseWriter) (h : w.wroteHeader = true) :
    w.finish = w := by
  simp [http.ResponseWriter.finish, http.ResponseWriter.WriteHeader, h]

theorem httpError_world {σ : Type} (st : HandlerState σ) (status : Nat) (err : Option String) :
    (httpError st status err).world = st.world := by
  cases err <;> rfl

theorem httpError_execs {σ : Type} (st : HandlerState σ) (status : Nat) (err : Option String) :
    execsOf (httpError st status err).trace = execsOf st.trace := by
  cases err <;> simp [httpError, logLine, execsOf_append, execsOf]

theorem httpError_unmarshals {σ : Type} (st : HandlerState σ) (status : Nat)
    (err : Option String) :
    unmarshalsOf (httpError st status err).trace = unmarshalsOf st.trace := by
  cases err <;> simp [httpError, logLine, unmarshalsOf_append, unmarshalsOf]

theorem httpError_reads {σ : Type} (st : HandlerState σ) (status : Nat) (err : Option String) :
    readsOf (httpError st status err).trace = readsOf st.trace := by
  cases err <;> simp [httpError, logLine, readsOf_append, readsOf]

theorem httpError_wroteHeader {σ : Type} (st : HandlerState σ) (status : Nat)
    (err : Option String) : (httpError st status err).w.wroteHeader = true := by
  cases err <;> simp [httpError, logLine, Write_wroteHeader, Error_wroteHeader]

theorem httpError_status {σ : Type} (st : HandlerState σ) (status : Nat) (err : Option String) :
    (httpError st status err).w.status = if st.w.wroteHeader then st.w.status else status := by
  cases err <;> simp [httpError, logLine, Write_status, Error_wroteHeader, Error_status]

theorem httpError_body {σ : Type} (st : HandlerState σ) (status : Nat) (e : String) :
    (httpError st status (some e)).w.body =
      st.w.body ++ bytesOf (http.StatusText status ++ "\n") ++
        bytesOf (toString status ++ ":" ++ e) := by
  simp [httpError, logLine, Write_body, Error_body]

/-! ## Lemmas on the command loop -/

theorem bytesOf_status_500 (e : Bytes) :
    bytesOf (toString 500) ++ (bytesOf ":" ++ e) = bytesOf "500:" ++ e := by
  have h : bytesOf (toString 500) ++ bytesOf ":" = bytesOf "500:" := by decide
  rw [← List.append_assoc, h]

theorem runCommand_world {σ : Type} (rt : Runtime σ) (hook : PushPayload) (cmd : String)
    (st : HandlerState σ) :
    (runCommand rt hook cmd st).world =
      (rt.CombinedOutput st.world (commandFor rt hook cmd)).1 := by
  unfold runCommand
  simp only [exec.Command, repoEnv]
  cases h : (rt.CombinedOutput st.world (commandFor rt hook cmd)).2.err <;>
    simp [commandFor] at h ⊢ <;> simp [h, httpError_world, logLine]

theorem runCommand_execs {σ : Type} (rt : Runtime σ) (hook : PushPayload) (cmd : String)
    (st : HandlerState σ) :
    execsOf (runCommand rt hook cmd st).trace = execsOf st.trace ++ [commandFor rt hook cmd] := by
  unfold runCommand
  simp only [exec.Command, repoEnv]
  cases h : (rt.CombinedOutput st.world (commandFor rt hook cmd)).2.err <;>
    simp [commandFor] at h ⊢ <;>
    simp [h, httpError_execs, logLine, execsOf_append, execsOf]

theorem runCommand_unmarshals {σ : Type} (rt : Runtime σ) (hook : PushPayload) (cmd : String)
    (st : HandlerState σ) :
    unmarshalsOf (runCommand rt hook cmd st).trace = unmarshalsOf st.trace := by
  unfold runCommand
  simp only [exec.Command, repoEnv]
  cases h : (rt.CombinedOutput st.world (commandFor rt hook cmd)).2.err <;>
    simp [commandFor] at h ⊢ <;>
    simp [h, httpError_unmarshals, logLine, unmarshalsOf_append, unmarshalsOf]

theorem runCommand_body {σ : Type} (rt : Runtime σ) (hook : PushPayload) (cmd : String)
    (st : HandlerState σ) :
    (runCommand rt hook cmd st).w.body =
      st.w.body ++ chunk (rt.CombinedOutput st.world (commandFor rt hook cmd)).2 := by
  unfold runCommand chunk
  simp only [exec.Command, repoEnv]
  cases h : (rt.CombinedOutput st.world (commandFor rt hook cmd)).2.err <;>
    simp [commandFor] at h ⊢ <;>
    simp [h, httpError_body, logLine, Write_body, http.StatusText,
      http.StatusInternalServerError, bytesOf_append, bytesOf_status_500]

theorem runCommand_wroteHeader {σ : Type} (rt : Runtime σ) (hook : PushPayload) (cmd : String)
    (st : HandlerState σ) : (runCommand rt hook cmd st).w.wroteHeader = true := by
  unfold runCommand
  simp only [exec.Command, repoEnv]
  cases h : (rt.CombinedOutput st.world (commandFor rt hook cmd)).2.err <;>
    simp [commandFor] at h ⊢ <;>
    simp [h, httpError_wroteHeader, logLine, Write_wroteHeader]

theorem runCommand_status {σ : Type} (rt : Runtime σ) (hook : PushPayload) (cmd : String)
    (st : HandlerState σ) :
    (runCommand rt hook cmd st).w.status =
      if st.w.wroteHeader then st.w.status
      else match (rt.CombinedOutput st.world (commandFor rt hook cmd)).2.err with
        | none => 200
        | some _ => 500 := by
  unfold runCommand
  simp only [exec.Command, repoEnv]
  cases h : (rt.CombinedOutput st.world (commandFor rt hook cmd)).2.err <;>
    simp [commandFor] at h ⊢ <;>
    simp [h, httpError_status, logLine, Write_status, http.StatusInternalServerError]

theorem runCommands_world_execs_body {σ : Type} (rt : Runtime σ) (hook : PushPayload)
    (cmds : List String) (st : HandlerState σ) :
    execsOf (runCommands rt hook cmds st).trace =
        execsOf st.trace ++ cmds.map (commandFor rt hook) ∧
      (runCommands rt hook cmds st).w.body =
        st.w.body ++ (outcomes rt hook cmds st.world).flatMap chunk ∧
      unmarshalsOf (runCommands rt hook cmds st).trace = unmarshalsOf st.trace := by
  induction cmds generalizing st with
  | nil => simp [runCommands, outcomes]
  | cons cmd rest ih =>
    obtain ⟨h1, h2, h3⟩ := ih (runCommand rt hook cmd st)
    simp only [runCommands, outcomes, List.map_cons, List.flatMap_cons]
    rw [h1, h2, h3, runCommand_execs, runCommand_body, runCommand_world, runCommand_unmarshals]
    simp

theorem runCommands_status {σ : Type} (rt : Runtime σ) (hook : PushPayload)
    (cmds : List String) (st : HandlerState σ) (h : st.w.wroteHeader = true) :
    (runCommands rt hook cmds st).w.status = st.w.status ∧
      (runCommands rt hook cmds st).w.wroteHeader = true := by
  induction cmds generalizing st with
  | nil => simp [runCommands, h]
  | cons cmd rest ih =>
    obtain ⟨h1, h2⟩ := ih (runCommand rt hook cmd st) (runCommand_wroteHeader rt hook cmd st)
    simp only [runCommands]
    rw [h1, h2, runCommand_status]
    simp [h]

theorem runCommands_status_of_first {σ : Type} (rt : Runtime σ) (hook : PushPayload)
    (cmd : String) (rest : List String) (st : HandlerState σ)
    (hw : st.w.wroteHeader = false) :
    (runCommands rt hook (cmd :: rest) st).w.finish.status =
      match (rt.CombinedOutput st.world (commandFor rt hook cmd)).2.err with
      | none => 200
      | some _ => 500 := by
  obtain ⟨h1, h2⟩ := runCommands_status rt hook rest (runCommand rt hook cmd st)
    (runCommand_wroteHeader rt hook cmd st)
  simp only [runCommands]
  rw [finish_of_wroteHeader _ h2, h1, runCommand_status]
  simp [hw]

theorem dispatch_eq_find {σ : Type} (rt : Runtime σ) (hook : PushPayload)
    (repos : List ConfigRepository) (st : HandlerState σ) :
    dispatch rt hook repos st =
      match repos.find? (ruleMatches hook) with
      | some rule => runCommands rt hook rule.Commands st
      | none => st := by
  induction repos with
  | nil => rfl
  | cons repo rest ih =>
    by_cases h : repo.Name = hook.Repo.FullName ∨ repo.Name = hook.Repo.HTMLURL
    · simp [dispatch, List.find?, ruleMatches, h]
    · simp only [dispatch, h, if_false, ih]
      simp [List.find?, ruleMatches, h]

theorem hookHandler_decoded {σ : Type} (rt : Runtime σ) (config : Config)
    (st : HandlerState σ) (r : Request) (data : Bytes) (hook : PushPayload)
    (hm : r.Method = "POST") (he : r.HeaderGet "X-Gitea-Event" = "push")
    (hb : r.Body = Except.ok data) (hd : rt.Unmarshal data = (hook, none)) :
    hookHandler rt config st r = dispatch rt hook config.Repositories (afterDecode st data hook) := by
  unfold hookHandler hookHandlerBody afterDecode
  simp [hm, he, hb, hd, http.MethodPost, panicIf, logLine]

theorem dispatch_first_match {σ : Type} (rt : Runtime σ) (hook : PushPayload)
    (pre : List ConfigRepository) (rule : ConfigRepository) (post : List ConfigRepository)
    (st : HandlerState σ)
    (hpre : ∀ x ∈ pre, x.Name ≠ hook.Repo.FullName ∧ x.Name ≠ hook.Repo.HTMLURL)
    (hrule : rule.Name = hook.Repo.FullName ∨ rule.Name = hook.Repo.HTMLURL) :
    dispatch rt hook (pre ++ rule :: post) st = runCommands rt hook rule.Commands st := by
  induction pre with
  | nil => simp [dispatch, hrule]
  | cons x rest ih =>
    have hx := hpre x (List.mem_cons_self x rest)
    have hrest : ∀ y ∈ rest, y.Name ≠ hook.Repo.FullName ∧ y.Name ≠ hook.Repo.HTMLURL :=
      fun y hy => hpre y (List.mem_cons_of_mem x hy)
    simp [dispatch, hx.1, hx.2, ih hrest]

theorem dispatch_no_match {σ : Type} (rt : Runtime σ) (hook : PushPayload)
    (repos : List ConfigRepository) (st : HandlerState σ)
    (hno : ∀ x ∈ repos, x.Name ≠ hook.Repo.FullName ∧ x.Name ≠ hook.Repo.HTMLURL) :
    dispatch rt hook repos st = st := by
  induction repos with
  | nil => rfl
  | cons x rest ih =>
    have hx := hno x (List.mem_cons_self x rest)
    have hrest : ∀ y ∈ rest, y.Name ≠ hook.Repo.FullName ∧ y.Name ≠ hook.Repo.HTMLURL :=
      fun y hy => hno y (List.mem_cons_of_mem x hy)
    simp [dispatch, hx.1, hx.2, ih hrest]

theorem afterDecode_start {σ : Type} (world : σ) (data : Bytes) (hook : PushPayload) :
    execsOf (afterDecode (HandlerState.start world) data hook).trace = [] ∧
      (afterDecode (HandlerState.start world) data hook).w = http.ResponseWriter.fresh ∧
      (afterDecode (HandlerState.start world) data hook).world = world := by
  simp [afterDecode, HandlerState.start, execsOf]

theorem hookHandler_undecoded {σ : Type} (rt : Runtime σ) (config : Config)
    (st : HandlerState σ) (r : Request) (data : Bytes) (hook : PushPayload) (e : String)
    (hm : r.Method = "POST") (he : r.HeaderGet "X-Gitea-Event" = "push")
    (hb : r.Body = Except.ok data) (hd : rt.Unmarshal data = (hook, some e)) :
    hookHandler rt config st r =
      httpError { st with trace := st.trace ++ [Event.readAll, Event.unmarshal data] }
        http.StatusBadRequest
        (some ("panic: " ++ (e ++
          (" " ++ ("while unmarshaling request base64(" ++ b64.EncodeToString data ++ ")"))))) := by
  unfold hookHandler hookHandlerBody
  simp [hm, he, hb, hd, http.MethodPost, panicIf]

theorem hookHandler_unread {σ : Type} (rt : Runtime σ) (config : Config)
    (st : HandlerState σ) (r : Request) (e : String)
    (hm : r.Method = "POST") (he : r.HeaderGet "X-Gitea-Event" = "push")
    (hb : r.Body = Except.error e) :
    hookHandler rt config st r =
      httpError { st with trace := st.trace ++ [Event.readAll] } http.StatusBadRequest
        (some ("reading body: " ++ e)) := by
  unfold hookHandler hookHandlerBody
  simp [hm, he, hb, http.MethodPost]

theorem hookHandler_not_post {σ : Type} (rt : Runtime σ) (config : Config)
    (st : HandlerState σ) (r : Request) (hm : r.Method ≠ "POST") :
    hookHandler rt config st r = httpError st http.StatusMethodNotAllowed none := by
  unfold hookHandler hookHandlerBody
  simp [hm, http.MethodPost]

theorem hookHandler_not_push {σ : Type} (rt : Runtime σ) (config : Config)
    (st : HandlerState σ) (r : Request) (hm : r.Method = "POST")
    (he : r.HeaderGet "X-Gitea-Event" ≠ "push") :
    hookHandler rt config st r =
      httpError st http.StatusBadRequest
        (some ("unhandled event " ++ r.HeaderGet "X-Gitea-Event")) := by
  unfold hookHandler hookHandlerBody
  simp [hm, he, http.MethodPost]

theorem finish_body (w : http.ResponseWriter) : w.finish.body = w.body := by
  unfold http.ResponseWriter.finish http.ResponseWriter.WriteHeader
  cases h : w.wroteHeader <;> simp [h]

theorem diagnostic_bytes (e t : Bytes) :
    bytesOf "400:" ++ (bytesOf "panic: " ++
        (e ++ (bytesOf " " ++ (bytesOf "while unmarshaling request base64(" ++ t)))) =
      bytesOf "400:panic: " ++ (e ++ (bytesOf " while unmarshaling request base64(" ++ t)) := by
  have h1 : bytesOf "400:" ++ bytesOf "panic: " = bytesOf "400:panic: " := by decide
  have h2 : bytesOf " " ++ bytesOf "while unmarshaling request base64(" =
      bytesOf " while unmarshaling request base64(" := by decide
  rw [← List.append_assoc (bytesOf "400:"), h1, ← List.append_assoc (bytesOf " "), h2]

/-! ## Rule selection -/

/-- C1: for a POST push request whose body decodes to `hook`, and for every configuration,
the handler uses the first rule in declaration order whose `Name` equals the full name or
the HTML URL of the repository: when the rules before `rule` do not match and `rule`
matches, the handler does exactly what running the commands of `rule` does, whatever rules
follow it; and when no rule matches, the handler runs nothing and leaves the state as it was
when the loop started. -/
theorem hookHandler_selects_first_match {σ : Type} (rt : Runtime σ) (config : Config)
    (st : HandlerState σ) (r : Request) (data : Bytes) (hook : PushPayload)
    (hm : r.Method = "POST") (he : r.HeaderGet "X-Gitea-Event" = "push")
    (hb : r.Body = Except.ok data) (hd : rt.Unmarshal data = (hook, none)) :
    (∀ (pre : List ConfigRepository) (rule : ConfigRepository) (post : List ConfigRepository),
        config.Repositories = pre ++ rule :: post →
        (∀ x ∈ pre, x.Name ≠ hook.Repo.FullName ∧ x.Name ≠ hook.Repo.HTMLURL) →
        (rule.Name = hook.Repo.FullName ∨ rule.Name = hook.Repo.HTMLURL) →
        hookHandler rt config st r =
          runCommands rt hook rule.Commands (afterDecode st data hook)) ∧
      ((∀ x ∈ config.Repositories,
          x.Name ≠ hook.Repo.FullName ∧ x.Name ≠ hook.Repo.HTMLURL) →
        hookHandler rt config st r = afterDecode st data hook) := by
  rw [hookHandler_decoded rt config st r data hook hm he hb hd]
  constructor
  · intro pre rule post hsplit hpre hrule
    rw [hsplit]
    exact dispatch_first_match rt hook pre rule post _ hpre hrule
  · intro hno
    exact dispatch_no_match rt hook _ _ hno

/-- A configuration whose second and third rules both match `samplePush` (the second by URL,
the third by name): only the commands of the second run. -/
theorem hookHandler_selects_first_match_witness :
    (postRequest "push" "push org/repo").Method = "POST" ∧
      (postRequest "push" "push org/repo").HeaderGet "X-Gitea-Event" = "push" ∧
      hookHandler sampleRuntime
          (configWith [⟨"org/other", ["build"]⟩,
            ⟨"https://git.example.org/org/repo", ["deploy"]⟩, ⟨"org/repo", ["notify"]⟩])
          (HandlerState.start 0) (postRequest "push" "push org/repo") =
        runCommands sampleRuntime samplePush ["deploy"]
          (afterDecode (HandlerState.start 0) (bytesOf "push org/repo") samplePush) :=
  ⟨by decide, by decide,
    (hookHandler_selects_first_match sampleRuntime
      (configWith [⟨"org/other", ["build"]⟩,
        ⟨"https://git.example.org/org/repo", ["deploy"]⟩, ⟨"org/repo", ["notify"]⟩])
      (HandlerState.start 0) (postRequest "push" "push org/repo") (bytesOf "push org/repo")
      samplePush (by decide) (by decide) rfl (by decide)).1
      [⟨"org/other", ["build"]⟩] ⟨"https://git.example.org/org/repo", ["deploy"]⟩
      [⟨"org/repo", ["notify"]⟩] rfl (by decide) (by decide)⟩

/-! ## Command execution and the response body -/

/-- C2: for a POST push request that selects `rule` (the first matching rule), the commands
started are exactly the commands of `rule`, each once and in declared order, whether or not
earlier ones failed, and the response body is the concatenation, in that order, of one chunk
per command: its output if it succeeded, the line `Internal Server Error` followed by
`500:` and the error if it failed. In particular, for two commands of which the first fails
and the second succeeds, the body is the error indication of the first followed by the
output of the second. -/
theorem hookHandler_runs_all_commands {σ : Type} (rt : Runtime σ) (config : Config)
    (world : σ) (r : Request) (data : Bytes) (hook : PushPayload)
    (pre : List ConfigRepository) (rule : ConfigRepository) (post : List ConfigRepository)
    (hm : r.Method = "POST") (he : r.HeaderGet "X-Gitea-Event" = "push")
    (hb : r.Body = Except.ok data) (hd : rt.Unmarshal data = (hook, none))
    (hsplit : config.Repositories = pre ++ rule :: post)
    (hpre : ∀ x ∈ pre, x.Name ≠ hook.Repo.FullName ∧ x.Name ≠ hook.Repo.HTMLURL)
    (hrule : rule.Name = hook.Repo.FullName ∨ rule.Name = hook.Repo.HTMLURL) :
    execsOf (hookHandler rt config (HandlerState.start world) r).trace =
        rule.Commands.map (commandFor rt hook) ∧
      (hookHandler rt config (HandlerState.start world) r).w.finish.body =
        (outcomes rt hook rule.Commands world).flatMap chunk ∧
      (∀ (c1 c2 e1 : String), rule.Commands = [c1, c2] →
        (rt.CombinedOutput world (commandFor rt hook c1)).2.err = some e1 →
        (rt.CombinedOutput (rt.CombinedOutput world (commandFor rt hook c1)).1
            (commandFor rt hook c2)).2.err = none →
        (hookHandler rt config (HandlerState.start world) r).w.finish.body =
          bytesOf "Internal Server Error\n" ++ bytesOf ("500:" ++ e1) ++
            (rt.CombinedOutput (rt.CombinedOutput world (commandFor rt hook c1)).1
              (commandFor rt hook c2)).2.out) := by
  have hrun : hookHandler rt config (HandlerState.start world) r =
      runCommands rt hook rule.Commands (afterDecode (HandlerState.start world) data hook) := by
    rw [hookHandler_decoded rt config _ r data hook hm he hb hd, hsplit]
    exact dispatch_first_match rt hook pre rule post _ hpre hrule
  obtain ⟨h1, h2, _⟩ := runCommands_world_execs_body rt hook rule.Commands
    (afterDecode (HandlerState.start world) data hook)
  obtain ⟨s1, s2, s3⟩ := afterDecode_start world data hook
  have hbody : (hookHandler rt config (HandlerState.start world) r).w.finish.body =
      (outcomes rt hook rule.Commands world).flatMap chunk := by
    have hfin : ∀ w : http.ResponseWriter, w.finish.body = w.body := by
      intro w
      unfold http.ResponseWriter.finish http.ResponseWriter.WriteHeader
      cases h : w.wroteHeader <;> simp [h]
    rw [hfin, hrun, h2, s2, s3]
    simp [http.ResponseWriter.fresh]
  refine ⟨?_, hbody, ?_⟩
  · rw [hrun, h1, s1]
    simp
  · intro c1 c2 e1 hc h1e h2e
    rw [hbody, hc]
    simp [outcomes, chunk, h1e, h2e]

/-- The rule for `org/repo` has the commands `false` and `deploy`: both are started, and the
body is the error indication of the first followed by the output of the second. -/
theorem hookHandler_runs_all_commands_witness :
    (postRequest "push" "push org/repo").Method = "POST" ∧
      sampleRuntime.Unmarshal (bytesOf "push org/repo") = (samplePush, none) ∧
      execsOf (hookHandler sampleRuntime (configWith [⟨"org/repo", ["false", "deploy"]⟩])
          (HandlerState.start 0) (postRequest "push" "push org/repo")).trace =
        [commandFor sampleRuntime samplePush "false",
          commandFor sampleRuntime samplePush "deploy"] ∧
      (hookHandler sampleRuntime (configWith [⟨"org/repo", ["false", "deploy"]⟩])
          (HandlerState.start 0) (postRequest "push" "push org/repo")).w.finish.body =
        bytesOf "Internal Server Error\n" ++ bytesOf ("500:" ++ "exit status 1") ++
          bytesOf "ok\n" :=
  ⟨by decide, by decide,
    (hookHandler_runs_all_commands sampleRuntime (configWith [⟨"org/repo", ["false", "deploy"]⟩])
      0 (postRequest "push" "push org/repo") (bytesOf "push org/repo") samplePush
      [] ⟨"org/repo", ["false", "deploy"]⟩ [] (by decide) (by decide) rfl (by decide) rfl
      (by decide) (by decide)).1,
    (hookHandler_runs_all_commands sampleRuntime (configWith [⟨"org/repo", ["false", "deploy"]⟩])
      0 (postRequest "push" "push org/repo") (bytesOf "push org/repo") samplePush
      [] ⟨"org/repo", ["false", "deploy"]⟩ [] (by decide) (by decide) rfl (by decide) rfl
      (by decide) (by decide)).2.2 "false" "deploy" "exit status 1" rfl (by decide)
      (by decide)⟩

/-! ## The response status -/

/-- C3, evaluated where it fails: the rule for `org/repo` has the commands `deploy`, which
succeeds, and `false`, which fails. Both run, the body holds the output of the first and the
error indication of the second, and the status of the response is 200, not 500: the status
was committed when the output of `deploy` was written, and the later `WriteHeader(500)` of
`httpError` has no effect. With the two commands in the other order the status is 500. -/
theorem hookHandler_status_after_output_written :
    execsOf (hookHandler sampleRuntime (configWith [⟨"org/repo", ["deploy", "false"]⟩])
        (HandlerState.start 0) (postRequest "push" "push org/repo")).trace =
        [commandFor sampleRuntime samplePush "deploy",
          commandFor sampleRuntime samplePush "false"] ∧
      (outcomes sampleRuntime samplePush ["deploy", "false"] 0).map (fun res => res.err) =
        [none, some "exit status 1"] ∧
      (hookHandler sampleRuntime (configWith [⟨"org/repo", ["deploy", "false"]⟩])
        (HandlerState.start 0) (postRequest "push" "push org/repo")).w.finish.body =
        bytesOf "ok\n" ++ bytesOf "Internal Server Error\n500:exit status 1" ∧
      (hookHandler sampleRuntime (configWith [⟨"org/repo", ["deploy", "false"]⟩])
        (HandlerState.start 0) (postRequest "push" "push org/repo")).w.finish.status = 200 ∧
      (hookHandler sampleRuntime (configWith [⟨"org/repo", ["false", "deploy"]⟩])
        (HandlerState.start 0) (postRequest "push" "push org/repo")).w.finish.status = 500 := by
  decide

/-! ## Requests that are not push events -/

/-- C4: a request whose method is not POST, or whose `X-Gitea-Event` header is not `push`
(an absent header reads as the empty string), starts no command, is not decoded, its body is
not even read, and the world is untouched, whatever body it carries; if the method is POST the
status of the response is 400. -/
theorem hookHandler_rejects_other_events {σ : Type} (rt : Runtime σ) (config : Config)
    (world : σ) (r : Request)
    (h : r.Method ≠ "POST" ∨ r.HeaderGet "X-Gitea-Event" ≠ "push") :
    execsOf (hookHandler rt config (HandlerState.start world) r).trace = [] ∧
      unmarshalsOf (hookHandler rt config (HandlerState.start world) r).trace = [] ∧
      readsOf (hookHandler rt config (HandlerState.start world) r).trace = 0 ∧
      (hookHandler rt config (HandlerState.start world) r).world = world ∧
      (r.Method = "POST" →
        (hookHandler rt config (HandlerState.start world) r).w.finish.status = 400) := by
  by_cases hm : r.Method = "POST"
  · have he : r.HeaderGet "X-Gitea-Event" ≠ "push" := by
      rcases h with h | h
      · exact absurd hm h
      · exact h
    have hh : hookHandler rt config (HandlerState.start world) r =
        httpError (HandlerState.start world) http.StatusBadRequest
          (some ("unhandled event " ++ r.HeaderGet "X-Gitea-Event")) := by
      unfold hookHandler hookHandlerBody
      simp [hm, he, http.MethodPost]
    rw [hh, httpError_execs, httpError_unmarshals, httpError_reads, httpError_world]
    refine ⟨rfl, rfl, rfl, rfl, fun _ => ?_⟩
    rw [finish_of_wroteHeader _ (httpError_wroteHeader _ _ _), httpError_status]
    simp [HandlerState.start, http.ResponseWriter.fresh, http.StatusBadRequest]
  · have hh : hookHandler rt config (HandlerState.start world) r =
        httpError (HandlerState.start world) http.StatusMethodNotAllowed none := by
      unfold hookHandler hookHandlerBody
      simp [hm, http.MethodPost]
    rw [hh, httpError_execs, httpError_unmarshals, httpError_reads, httpError_world]
    exact ⟨rfl, rfl, rfl, rfl, fun hp => absurd hp hm⟩

/-- A POST request without the event header whose body would decode and match a rule: nothing
runs and the status is 400. -/
theorem hookHandler_rejects_other_events_witness :
    ((⟨"POST", [], Except.ok (bytesOf "push org/repo")⟩ : Request).Method ≠ "POST" ∨
        (⟨"POST", [], Except.ok (bytesOf "push org/repo")⟩ : Request).HeaderGet "X-Gitea-Event"
          ≠ "push") ∧
      execsOf (hookHandler sampleRuntime (configWith [⟨"org/repo", ["deploy"]⟩])
        (HandlerState.start 0) ⟨"POST", [], Except.ok (bytesOf "push org/repo")⟩).trace = [] ∧
      (hookHandler sampleRuntime (configWith [⟨"org/repo", ["deploy"]⟩])
        (HandlerState.start 0)
          ⟨"POST", [], Except.ok (bytesOf "push org/repo")⟩).w.finish.status = 400 :=
  ⟨Or.inr (by decide),
    (hookHandler_rejects_other_events sampleRuntime (configWith [⟨"org/repo", ["deploy"]⟩]) 0
      ⟨"POST", [], Except.ok (bytesOf "push org/repo")⟩ (Or.inr (by decide))).1,
    (hookHandler_rejects_other_events sampleRuntime (configWith [⟨"org/repo", ["deploy"]⟩]) 0
      ⟨"POST", [], Except.ok (bytesOf "push org/repo")⟩ (Or.inr (by decide))).2.2.2.2 rfl⟩

/-! ## The environment of the commands -/

/-- C6: every command a request starts was built from the decoded body of that request, is
invoked with no arguments (its argument vector holds the program name only), and has as
environment the environment of the parent process followed by exactly the five entries
`REPO_NAME`, `REPO_OWNER`, `REPO_REF`, `REPO_HEAD_COMMIT`, `REPO_HEAD_AUTHOR`, in this order,
with the values of the push event. The entries depend on the event only, so all commands of
one request get the same five. -/
theorem hookHandler_command_environment {σ : Type} (rt : Runtime σ) (config : Config)
    (world : σ) (r : Request) (c : Cmd)
    (hc : c ∈ execsOf (hookHandler rt config (HandlerState.start world) r).trace) :
    ∃ data : Bytes, r.Body = Except.ok data ∧ (rt.Unmarshal data).2 = none ∧
      c.Args = [c.Path] ∧
      c.Env = rt.Environ ++
        [ "REPO_NAME=" ++ (rt.Unmarshal data).1.Repo.FullName,
          "REPO_OWNER=" ++ (rt.Unmarshal data).1.Repo.Owner.Email,
          "REPO_REF=" ++ (rt.Unmarshal data).1.Ref,
          "REPO_HEAD_COMMIT=" ++ (rt.Unmarshal data).1.HeadCommit.ID,
          "REPO_HEAD_AUTHOR=" ++ (rt.Unmarshal data).1.HeadCommit.Author.Email ] := by
  by_cases hm : r.Method = "POST"
  · by_cases he : r.HeaderGet "X-Gitea-Event" = "push"
    · cases hb : r.Body with
      | error e =>
        rw [hookHandler_unread rt config _ r e hm he hb, httpError_execs] at hc
        simp [HandlerState.start, execsOf_append, execsOf] at hc
      | ok data =>
        cases hd : (rt.Unmarshal data).2 with
        | some e =>
          have hd2 : rt.Unmarshal data = ((rt.Unmarshal data).1, some e) := by
            rw [← hd]
          rw [hookHandler_undecoded rt config _ r data _ e hm he hb hd2, httpError_execs] at hc
          simp [HandlerState.start, execsOf_append, execsOf] at hc
        | none =>
          have hd2 : rt.Unmarshal data = ((rt.Unmarshal data).1, none) := by
            rw [← hd]
          rw [hookHandler_decoded rt config _ r data _ hm he hb hd2, dispatch_eq_find] at hc
          refine ⟨data, rfl, hd, ?_⟩
          cases hf : List.find? (ruleMatches (rt.Unmarshal data).1) config.Repositories with
          | none =>
            rw [hf] at hc
            simp [(afterDecode_start world data _).1] at hc
          | some rule =>
            rw [hf] at hc
            simp only [] at hc
            rw [(runCommands_world_execs_body rt _ rule.Commands _).1,
              (afterDecode_start world data _).1] at hc
            simp only [List.nil_append, List.mem_map] at hc
            obtain ⟨cmd, _, hcmd⟩ := hc
            rw [← hcmd]
            exact ⟨rfl, rfl⟩
    · rw [hookHandler_not_push rt config _ r hm he, httpError_execs] at hc
      simp [HandlerState.start, execsOf] at hc
  · rw [hookHandler_not_post rt config _ r hm, httpError_execs] at hc
    simp [HandlerState.start, execsOf] at hc

/-- The command `deploy` started for `samplePush`: no arguments, and the parent environment
followed by the five entries. -/
theorem hookHandler_command_environment_witness :
    commandFor sampleRuntime samplePush "deploy" ∈
        execsOf (hookHandler sampleRuntime (configWith [⟨"org/repo", ["notify", "deploy"]⟩])
          (HandlerState.start 0) (postRequest "push" "push org/repo")).trace ∧
      ∃ data : Bytes, (postRequest "push" "push org/repo").Body = Except.ok data ∧
        (sampleRuntime.Unmarshal data).2 = none ∧
        (commandFor sampleRuntime samplePush "deploy").Args =
          [(commandFor sampleRuntime samplePush "deploy").Path] ∧
        (commandFor sampleRuntime samplePush "deploy").Env = sampleRuntime.Environ ++
          [ "REPO_NAME=" ++ (sampleRuntime.Unmarshal data).1.Repo.FullName,
            "REPO_OWNER=" ++ (sampleRuntime.Unmarshal data).1.Repo.Owner.Email,
            "REPO_REF=" ++ (sampleRuntime.Unmarshal data).1.Ref,
            "REPO_HEAD_COMMIT=" ++ (sampleRuntime.Unmarshal data).1.HeadCommit.ID,
            "REPO_HEAD_AUTHOR=" ++ (sampleRuntime.Unmarshal data).1.HeadCommit.Author.Email ] :=
  ⟨by decide,
    hookHandler_command_environment sampleRuntime
      (configWith [⟨"org/repo", ["notify", "deploy"]⟩]) 0 (postRequest "push" "push org/repo")
      (commandFor sampleRuntime samplePush "deploy") (by decide)⟩

/-! ## No matching rule -/

/-- C7: for a POST push request whose body decodes to an event whose repository full name and
HTML URL both differ from the `Name` of every configured rule (in particular when there is no
rule), no command is started, the world is untouched, and the response has status 200 and an
empty body. -/
theorem hookHandler_no_match_silent {σ : Type} (rt : Runtime σ) (config : Config)
    (world : σ) (r : Request) (data : Bytes) (hook : PushPayload)
    (hm : r.Method = "POST") (he : r.HeaderGet "X-Gitea-Event" = "push")
    (hb : r.Body = Except.ok data) (hd : rt.Unmarshal data = (hook, none))
    (hno : ∀ x ∈ config.Repositories,
      x.Name ≠ hook.Repo.FullName ∧ x.Name ≠ hook.Repo.HTMLURL) :
    execsOf (hookHandler rt config (HandlerState.start world) r).trace = [] ∧
      (hookHandler rt config (HandlerState.start world) r).world = world ∧
      (hookHandler rt config (HandlerState.start world) r).w.finish.status = 200 ∧
      (hookHandler rt config (HandlerState.start world) r).w.finish.body = [] := by
  rw [hookHandler_decoded rt config _ r data hook hm he hb hd,
    dispatch_no_match rt hook _ _ hno]
  obtain ⟨s1, s2, s3⟩ := afterDecode_start world data hook
  rw [s1, s2, s3]
  exact ⟨rfl, rfl, rfl, rfl⟩

/-- A push for `org/repo` against a configuration that only knows `org/other`. -/
theorem hookHandler_no_match_silent_witness :
    (∀ x ∈ (configWith [⟨"org/other", ["build"]⟩]).Repositories,
        x.Name ≠ samplePush.Repo.FullName ∧ x.Name ≠ samplePush.Repo.HTMLURL) ∧
      execsOf (hookHandler sampleRuntime (configWith [⟨"org/other", ["build"]⟩])
        (HandlerState.start 0) (postRequest "push" "push org/repo")).trace = [] ∧
      (hookHandler sampleRuntime (configWith [⟨"org/other", ["build"]⟩])
        (HandlerState.start 0) (postRequest "push" "push org/repo")).world = 0 ∧
      (hookHandler sampleRuntime (configWith [⟨"org/other", ["build"]⟩])
        (HandlerState.start 0) (postRequest "push" "push org/repo")).w.finish.status = 200 ∧
      (hookHandler sampleRuntime (configWith [⟨"org/other", ["build"]⟩])
        (HandlerState.start 0) (postRequest "push" "push org/repo")).w.finish.body = [] :=
  ⟨by decide,
    hookHandler_no_match_silent sampleRuntime (configWith [⟨"org/other", ["build"]⟩]) 0
      (postRequest "push" "push org/repo") (bytesOf "push org/repo") samplePush
      (by decide) (by decide) rfl (by decide) (by decide)⟩

/-! ## Bodies that do not decode -/

/-- C8: for a POST push request whose body `data` fails to decode with error `e`, the panic
raised by `panicIf` is recovered by the deferred function of `hookHandler` and answered with
status 400; the body of the response is the line `Bad Request` followed by `400:panic: `, the
decoding error, and the text ` while unmarshaling request base64(...)` around the standard
base64 encoding of `data`; the same diagnostic text is written to the log; no command is
started and the world is untouched. -/
theorem hookHandler_decode_failure {σ : Type} (rt : Runtime σ) (config : Config)
    (world : σ) (r : Request) (data : Bytes) (hook : PushPayload) (e : String)
    (hm : r.Method = "POST") (he : r.HeaderGet "X-Gitea-Event" = "push")
    (hb : r.Body = Except.ok data) (hd : rt.Unmarshal data = (hook, some e)) :
    (hookHandler rt config (HandlerState.start world) r).w.finish.status = 400 ∧
      (hookHandler rt config (HandlerState.start world) r).w.finish.body =
        bytesOf "Bad Request\n" ++ bytesOf "400:panic: " ++ bytesOf e ++
          bytesOf " while unmarshaling request base64(" ++
          bytesOf (b64.EncodeToString data) ++ bytesOf ")" ∧
      Event.log (bytesOf "400:panic: " ++ bytesOf e ++
          bytesOf " while unmarshaling request base64(" ++
          bytesOf (b64.EncodeToString data) ++ bytesOf ")") ∈
        (hookHandler rt config (HandlerState.start world) r).trace ∧
      execsOf (hookHandler rt config (HandlerState.start world) r).trace = [] ∧
      (hookHandler rt config (HandlerState.start world) r).world = world := by
  have h400 : toString 400 = "400" := by decide
  rw [hookHandler_undecoded rt config _ r data hook e hm he hb hd]
  refine ⟨?_, ?_, ?_, ?_, ?_⟩
  · rw [finish_of_wroteHeader _ (httpError_wroteHeader _ _ _), httpError_status]
    simp [HandlerState.start, http.ResponseWriter.fresh, http.StatusBadRequest]
  · rw [finish_body, httpError_body]
    simp [HandlerState.start, http.ResponseWriter.fresh, http.StatusBadRequest,
      http.StatusText, bytesOf_append, h400, diagnostic_bytes]
  · simp [httpError, logLine, http.StatusBadRequest, bytesOf_append, h400, diagnostic_bytes]
  · rw [httpError_execs]
    simp [HandlerState.start, execsOf_append, execsOf]
  · rw [httpError_world]
    rfl

/-- The body `bad` is not a push payload for `sampleRuntime`; its base64 encoding is `YmFk`. -/
theorem hookHandler_decode_failure_witness :
    sampleRuntime.Unmarshal (bytesOf "bad") = (emptyPush, some "invalid character") ∧
      b64.EncodeToString (bytesOf "bad") = "YmFk" ∧
      (hookHandler sampleRuntime (configWith [⟨"org/repo", ["deploy"]⟩])
        (HandlerState.start 0) (postRequest "push" "bad")).w.finish.status = 400 ∧
      (hookHandler sampleRuntime (configWith [⟨"org/repo", ["deploy"]⟩])
        (HandlerState.start 0) (postRequest "push" "bad")).w.finish.body =
        bytesOf "Bad Request\n" ++ bytesOf "400:panic: " ++ bytesOf "invalid character" ++
          bytesOf " while unmarshaling request base64(" ++
          bytesOf (b64.EncodeToString (bytesOf "bad")) ++ bytesOf ")" :=
  ⟨by decide, by decide,
    (hookHandler_decode_failure sampleRuntime (configWith [⟨"org/repo", ["deploy"]⟩]) 0
      (postRequest "push" "bad") (bytesOf "bad") emptyPush "invalid character"
      (by decide) (by decide) rfl (by decide)).1,
    (hookHandler_decode_failure sampleRuntime (configWith [⟨"org/repo", ["deploy"]⟩]) 0
      (postRequest "push" "bad") (bytesOf "bad") emptyPush "invalid character"
      (by decide) (by decide) rfl (by decide)).2.1⟩

/-! ## The signature middleware -/

/-- C5: the handler `main` registers is the signature middleware, built with the shared
secret, around `hookHandler`. For every secret, every configuration and every request, body
included, a request whose signature does not verify against the secret is answered by the
middleware alone: the result does not depend on the wrapped handler, which is not run; its
trace is empty, so the body is not decoded as a push payload and no command is started; the
world is untouched, and the status is 401. -/
theorem middleware_rejects_unverified {σ : Type} (verify : String → Request → Bool)
    (rt : Runtime σ) (secret : String) (config : Config) (world : σ) (r : Request)
    (h : verify secret r = false) :
    (∀ next : HandlerState σ → Request → HandlerState σ,
        VerifyWebhookSignatureMiddleware verify secret next (HandlerState.start world) r =
          VerifyWebhookSignatureMiddleware verify secret (hookHandler rt config)
            (HandlerState.start world) r) ∧
      (VerifyWebhookSignatureMiddleware verify secret (hookHandler rt config)
        (HandlerState.start world) r).trace = [] ∧
      unmarshalsOf (VerifyWebhookSignatureMiddleware verify secret
        (hookHandler rt config) (HandlerState.start world) r).trace = [] ∧
      execsOf (VerifyWebhookSignatureMiddleware verify secret
        (hookHandler rt config) (HandlerState.start world) r).trace = [] ∧
      (VerifyWebhookSignatureMiddleware verify secret (hookHandler rt config)
        (HandlerState.start world) r).world = world ∧
      (VerifyWebhookSignatureMiddleware verify secret (hookHandler rt config)
        (HandlerState.start world) r).w.finish.status = 401 := by
  have hrej : ∀ next : HandlerState σ → Request → HandlerState σ,
      VerifyWebhookSignatureMiddleware verify secret next (HandlerState.start world) r =
        { HandlerState.start world with
          w := http.Error (HandlerState.start world).w
            (http.StatusText http.StatusUnauthorized) http.StatusUnauthorized } := by
    intro next
    simp [VerifyWebhookSignatureMiddleware, h]
  refine ⟨fun next => by rw [hrej next, hrej (hookHandler rt config)], ?_⟩
  rw [hrej (hookHandler rt config)]
  refine ⟨rfl, rfl, rfl, rfl, ?_⟩
  rw [finish_of_wroteHeader _ (Error_wroteHeader _ _ _), Error_status]
  simp [HandlerState.start, http.ResponseWriter.fresh, http.StatusUnauthorized]

/-- A push for `org/repo` signed with the wrong secret: rejected with 401, nothing runs. -/
theorem middleware_rejects_unverified_witness :
    sampleVerify firstConfig.Secret (signedPush "guess") = false ∧
      (VerifyWebhookSignatureMiddleware sampleVerify firstConfig.Secret
        (hookHandler sampleRuntime firstConfig) (HandlerState.start 0)
        (signedPush "guess")).trace = [] ∧
      (VerifyWebhookSignatureMiddleware sampleVerify firstConfig.Secret
        (hookHandler sampleRuntime firstConfig) (HandlerState.start 0)
        (signedPush "guess")).w.finish.status = 401 :=
  ⟨by decide,
    (middleware_rejects_unverified sampleVerify sampleRuntime firstConfig.Secret firstConfig 0
      (signedPush "guess") (by decide)).2.1,
    (middleware_rejects_unverified sampleVerify sampleRuntime firstConfig.Secret firstConfig 0
      (signedPush "guess") (by decide)).2.2.2.2.2⟩

/-! ## Loading and reloading -/

/-- C9, evaluated where it fails: the variable `config` holds the first generation and the
config file is replaced by a valid one that names only `Address` and `Port`. After
`loadConfig` the variable holds the new address and port together with the log file, the
secret and the rules of the first generation; the configuration the file describes on its
own, which is what `loadConfig` yields on a zero variable, has neither secret nor rules. -/
theorem loadConfig_keeps_fields_not_named :
    loadConfig (sampleFiles partialText) "config.json" firstConfig =
        Except.ok { Logfile := "-", Address := "0.0.0.0", Port := 9090, Secret := "old",
                    Repositories := [{ Name := "org/repo", Commands := ["deploy"] }] } ∧
      loadConfig (sampleFiles partialText) "config.json" Config.zero =
        Except.ok { Logfile := "", Address := "0.0.0.0", Port := 9090, Secret := "",
                    Repositories := [] } := by
  constructor <;> rfl

/-- C10, evaluated where it fails: the process starts on the first generation (secret `old`)
and a SIGHUP reloads the second generation (secret `new`, the command `false` for
`org/repo`). Afterwards the variable `config` holds the new secret, the registered middleware
still holds the old one: a push signed with the new secret is rejected with 401 and runs
nothing, a push signed with the old secret is accepted and dispatched against the new rules.
A further SIGHUP, sent after the config file changed again, leaves the process as it is: the
goroutine that reloads has ended. -/
theorem reload_keeps_registered_secret :
    main (sampleFiles firstText) ["go-gitea-webhook"] = Except.ok firstProcess ∧
      sighup (sampleFiles secondText) firstProcess = Except.ok secondProcess ∧
      secondProcess.config.Secret = "new" ∧
      secondProcess.secret = "old" ∧
      (serve sampleVerify sampleRuntime secondProcess 0 (signedPush "new")).w.finish.status
        = 401 ∧
      (serve sampleVerify sampleRuntime secondProcess 0 (signedPush "new")).trace = [] ∧
      execsOf (serve sampleVerify sampleRuntime secondProcess 0 (signedPush "old")).trace =
        [commandFor sampleRuntime samplePush "false"] ∧
      sighup (sampleFiles firstText) secondProcess = Except.ok secondProcess := by
  refine ⟨rfl, rfl, rfl, rfl, ?_, ?_, ?_, rfl⟩ <;> decide

end GiteaWebhook
